import Mathlib

/-!
Verification of the analysis pipeline of the Legacy Code Modernizer backend
(`src/backend/main.py`, `src/backend/models.py`), shallowly embedded in Lean.

Syntax trees produced by the tree-sitter library are modelled by the
inductive `TSNode`; the tree-sitter parsing step itself (an external
library call) is abstracted as a function argument
`parseFn : Grammar → String → Except String TSNode`, and Python's builtin
`str()` serialization of a result dictionary is abstracted as a function
argument `pyStr`.  Database sessions are modelled by an explicit record of
persisted rows, and exceptions raised by external collaborators are
modelled by `Option String` oracles (`none` = no exception, `some m` =
an exception with message `m` is raised at that point).
-/

/-- Python's `in` test on lists of characters: `hasPrefixChars p s` is true
when `p` is a prefix of `s`. -/
def hasPrefixChars : List Char → List Char → Bool
  | [], _ => true
  | _ :: _, [] => false
  | p :: ps, c :: cs => p == c && hasPrefixChars ps cs

/-- Substring search on lists of characters. -/
def containsChars : List Char → List Char → Bool
  | s, pat =>
    if hasPrefixChars pat s then true
    else
      match s with
      | [] => false
      | _ :: cs => containsChars cs pat

/-- Python's substring containment `pat in s`. -/
def strContains (s pat : String) : Bool :=
  containsChars s.toList pat.toList

/-- Python `str.split` with a one-character separator, on character lists:
no collapsing of adjacent separators, and the empty string yields one
(empty) segment. -/
def splitChars (cs : List Char) (sep : Char) : List (List Char) :=
  match cs with
  | [] => [[]]
  | c :: rest =>
      let r := splitChars rest sep
      if c == sep then [] :: r
      else
        match r with
        | [] => [[c]]
        | h :: t => (c :: h) :: t

/-- Python `str.split` with a one-character separator. -/
def pySplit (s : String) (sep : Char) : List String :=
  (splitChars s.toList sep).map String.mk

/-- Python `str.lower`. -/
def pyLower (s : String) : String :=
  String.mk (s.toList.map Char.toLower)

/-- A tree-sitter syntax node: kind tag (`type`), source text (`text`),
inclusive 0-based line span, and child nodes. -/
inductive TSNode where
  | node (type : String) (text : String) (startLine : Nat) (endLine : Nat)
      (children : List TSNode)

def TSNode.type : TSNode → String
  | .node t _ _ _ _ => t

def TSNode.text : TSNode → String
  | .node _ tx _ _ _ => tx

def TSNode.startLine : TSNode → Nat
  | .node _ _ s _ _ => s

def TSNode.endLine : TSNode → Nat
  | .node _ _ _ e _ => e

def TSNode.children : TSNode → List TSNode
  | .node _ _ _ _ cs => cs

/-- The decision-point node kinds of `_calculate_complexity`
(`decision_types` in the source). -/
def decision_types : List String :=
  ["if_statement", "while_statement", "for_statement", "case_statement", "catch_clause"]

mutual

/-- The recursive `count_decisions` walk of `_calculate_complexity`:
adds 1 for every node (the root included) whose kind is a decision type,
descending into all children. -/
def countDecisions : TSNode → Nat
  | .node ty _ _ _ cs =>
      (if ty ∈ decision_types then 1 else 0) + countDecisionsList cs

def countDecisionsList : List TSNode → Nat
  | [] => 0
  | c :: cs => countDecisions c + countDecisionsList cs

end

/-- `_calculate_complexity`: starts at 1 and adds one per decision node
anywhere in the tree. -/
def calculate_complexity (root : TSNode) : Nat :=
  1 + countDecisions root

mutual

/-- All nodes of a tree, the root included (specification-side helper used
to state what `countDecisions` counts). -/
def allNodes : TSNode → List TSNode
  | .node ty tx s e cs => .node ty tx s e cs :: allNodesList cs

def allNodesList : List TSNode → List TSNode
  | [] => []
  | c :: cs => allNodes c ++ allNodesList cs

end

/-- `_get_node_text(node, node_type)`: text of the first child with the
given kind, falling back to the node's own text. -/
def get_node_text_typed (n : TSNode) (node_type : String) : String :=
  match n.children.find? (fun c => c.type == node_type) with
  | some c => c.text
  | none => n.text

/-- `_get_method_parameters`: texts of the `formal_parameter` children of
the first `formal_parameters` child. -/
def get_method_parameters (n : TSNode) : List String :=
  match n.children.find? (fun c => c.type == "formal_parameters") with
  | some c => (c.children.filter (fun p => p.type == "formal_parameter")).map TSNode.text
  | none => []

/-- `_get_function_parameters`: texts of the `identifier` children of the
first `parameters` child. -/
def get_function_parameters (n : TSNode) : List String :=
  match n.children.find? (fun c => c.type == "parameters") with
  | some c => (c.children.filter (fun p => p.type == "identifier")).map TSNode.text
  | none => []

structure FunctionInfo where
  name : String
  type : String
  parameters : List String
  start_line : Nat
  end_line : Nat
deriving DecidableEq, Repr

structure ClassInfo where
  name : String
  type : String
  start_line : Nat
  end_line : Nat
deriving DecidableEq, Repr

/-- `_extract_functions`: scans only the immediate children of `node`;
only the `java` and `python` branches exist in the source. -/
def extract_functions (node : TSNode) (language : String) : List FunctionInfo :=
  if language == "java" then
    node.children.filterMap (fun child =>
      if child.type == "method_declaration" then
        some { name := get_node_text_typed child "identifier"
               type := "method"
               parameters := get_method_parameters child
               start_line := child.startLine
               end_line := child.endLine }
      else none)
  else if language == "python" then
    node.children.filterMap (fun child =>
      if child.type == "function_definition" then
        some { name := get_node_text_typed child "identifier"
               type := "function"
               parameters := get_function_parameters child
               start_line := child.startLine
               end_line := child.endLine }
      else none)
  else []

/-- `_extract_classes`: scans only the immediate children of `node`. -/
def extract_classes (node : TSNode) (language : String) : List ClassInfo :=
  if language == "java" then
    node.children.filterMap (fun child =>
      if child.type == "class_declaration" then
        some { name := get_node_text_typed child "identifier"
               type := "class"
               start_line := child.startLine
               end_line := child.endLine }
      else none)
  else if language == "python" then
    node.children.filterMap (fun child =>
      if child.type == "class_definition" then
        some { name := get_node_text_typed child "identifier"
               type := "class"
               start_line := child.startLine
               end_line := child.endLine }
      else none)
  else []

/-- `_extract_imports`: raw text of import nodes among the immediate
children of `node`. -/
def extract_imports (node : TSNode) (language : String) : List String :=
  if language == "java" then
    node.children.filterMap (fun child =>
      if child.type == "import_declaration" then some child.text else none)
  else if language == "python" then
    node.children.filterMap (fun child =>
      if child.type == "import_statement" || child.type == "import_from_statement" then
        some child.text
      else none)
  else []

/-- Python `dict.get(key, default)` over an association list. -/
def dictGet {α : Type} : List (String × α) → String → α → α
  | [], _, dflt => dflt
  | (k, v) :: rest, key, dflt => if key == k then v else dictGet rest key dflt

/-- The final non-empty path component, as in `pathlib.PurePath.name`. -/
def pathName (filename : String) : String :=
  (((pySplit filename '/').filter (fun c => c ≠ "")).getLastD "")

/-- Index of the last occurrence of a character in a character list. -/
def lastIndexOf (cs : List Char) (ch : Char) : Option Nat :=
  (cs.foldl (fun (acc : Option Nat × Nat) c =>
    (if c == ch then some acc.2 else acc.1, acc.2 + 1)) (none, 0)).1

/-- `pathlib.PurePath.suffix`: from the last dot of the final component,
unless that dot is leading or trailing. -/
def pathSuffix (filename : String) : String :=
  let name := pathName filename
  let cs := name.toList
  match lastIndexOf cs '.' with
  | some i => if 0 < i ∧ i < cs.length - 1 then String.mk (cs.drop i) else ""
  | none => ""

/-- The extension→language table of `detect_language`. -/
def language_map : List (String × String) :=
  [(".java", "java"), (".js", "javascript"), (".jsx", "javascript"),
   (".ts", "javascript"), (".tsx", "javascript"), (".py", "python"),
   (".cs", "csharp"), (".cobol", "cobol"), (".cbl", "cobol"), (".cob", "cobol")]

/-- `CodeAnalysisTool.detect_language`: lower-cased filename extension
looked up in the fixed table, defaulting to `unknown`. -/
def detect_language (filename : String) (content : String) : String :=
  let _ := content
  let extension := pyLower (pathSuffix filename)
  dictGet language_map extension "unknown"

/-- The four registered tree-sitter grammars (`self.language_parsers`). -/
inductive Grammar where
  | java
  | javascript
  | python
  | csharp
deriving DecidableEq, Repr

/-- The grammar registry built in `CodeAnalysisTool.__init__`. -/
def language_parsers : List (String × Grammar) :=
  [("java", Grammar.java), ("javascript", Grammar.javascript),
   ("python", Grammar.python), ("csharp", Grammar.csharp)]

/-- `self.language_parsers.get(language, self.language_parsers['java'])`:
grammar lookup with fallback to the Java grammar. -/
def lookupParser (language : String) : Grammar :=
  dictGet language_parsers language Grammar.java

structure ParseResult where
  language : String
  functions : List FunctionInfo
  classes : List ClassInfo
  imports : List String
  complexity : Nat
  lines_of_code : Nat
  error : Option String := none
deriving DecidableEq, Repr

/-- The `try` branch of `parse_code` for a non-`unknown` language: parse
with the looked-up grammar (falling back to Java) and extract features,
or degrade with an error annotation when parsing raises. -/
def parse_with_grammar (parseFn : Grammar → String → Except String TSNode)
    (language content : String) : ParseResult :=
  match parseFn (lookupParser language) content with
  | .ok root_node =>
      { language := language
        functions := extract_functions root_node language
        classes := extract_classes root_node language
        imports := extract_imports root_node language
        complexity := calculate_complexity root_node
        lines_of_code := (pySplit content '\n').length }
  | .error e =>
      { language := language
        functions := []
        classes := []
        imports := []
        complexity := 0
        lines_of_code := (pySplit content '\n').length
        error := some e }

/-- `CodeAnalysisTool.parse_code`. -/
def parse_code (parseFn : Grammar → String → Except String TSNode)
    (filename content : String) : ParseResult :=
  let language := detect_language filename content
  if language == "unknown" then
    { language := "unknown"
      functions := []
      classes := []
      imports := []
      complexity := 0
      lines_of_code := (pySplit content '\n').length }
  else
    parse_with_grammar parseFn language content

structure ScannerResults where
  findings : List String
  severity : String
  recommendations : List String
deriving DecidableEq, Repr

/-- `scan_code_for_issues`: substring signals over the Python `str()`
serialization of the analysis dictionary (abstracted as `pyStr`) plus a
line-count threshold. -/
def scan_code_for_issues (pyStr : ParseResult → String)
    (code_info : ParseResult) : ScannerResults :=
  let s := pyLower (pyStr code_info)
  let findings0 : List String := []
  let findings1 :=
    if strContains s "sql" then
      findings0 ++ ["Potential SQL injection vulnerability detected"]
    else findings0
  let findings2 :=
    if strContains s "for" && strContains s "database" then
      findings1 ++ ["Possible N+1 query problem"]
    else findings1
  let findings3 :=
    if code_info.lines_of_code > 100 then
      findings2 ++ ["Large file size may affect maintainability"]
    else findings2
  { findings := findings3
    severity := if findings3.isEmpty then "low" else "medium"
    recommendations := ["Review database queries", "Consider refactoring large files"] }

structure DependencyResults where
  outdated_dependencies : List String
  vulnerable_dependencies : List String
  recommendations : List String
deriving DecidableEq, Repr

/-- One iteration of the import loop of `analyze_dependencies`,
accumulating (outdated, vulnerable). -/
def depStep (acc : List String × List String) (import_stmt : String) :
    List String × List String :=
  let low := pyLower import_stmt
  let acc1 :=
    if strContains low "spring" && strContains low "1.5" then
      (acc.1 ++ ["Spring Boot 1.5 (deprecated)"], acc.2)
    else acc
  if strContains low "log4j" then
    (acc1.1, acc1.2 ++ ["Log4j (security vulnerability)"])
  else acc1

/-- `analyze_dependencies`: scans the raw import strings only; the
language tag of `code_info` is never consulted. -/
def analyze_dependencies (code_info : ParseResult) : DependencyResults :=
  let acc := code_info.imports.foldl depStep ([], [])
  { outdated_dependencies := acc.1
    vulnerable_dependencies := acc.2
    recommendations := ["Upgrade Spring Boot to 3.x", "Replace Log4j with Logback"] }

structure CloudResults where
  cloud_readiness_score : Nat
  issues : List String
  recommendations : List String
  suggested_patterns : List String
deriving DecidableEq, Repr

/-- `analyze_cloud_readiness`: substring signals over the serialized
analysis dictionary. -/
def analyze_cloud_readiness (pyStr : ParseResult → String)
    (code_info : ParseResult) : CloudResults :=
  let s := pyLower (pyStr code_info)
  let issues1 :=
    if strContains s "session" then ["Stateful session management detected"] else []
  let recs1 :=
    if strContains s "session" then
      ["Consider external session storage for scalability"]
    else []
  let issues2 :=
    issues1 ++
      (if strContains s "localhost" || strContains s "127.0.0.1" then
        ["Hardcoded local configurations found"]
      else [])
  let recs2 :=
    recs1 ++
      (if strContains s "localhost" || strContains s "127.0.0.1" then
        ["Use environment variables for configuration"]
      else [])
  { cloud_readiness_score := if issues2.isEmpty then 75 else 50
    issues := issues2
    recommendations := recs2
    suggested_patterns := ["12-Factor App", "Microservices", "Containerization"] }

structure DbFinding where
  analysis_id : String
  finding_type : String
  severity : String
  title : String
  description : String
  location : String
  confidence : Nat
deriving DecidableEq, Repr

structure DbRecommendation where
  analysis_id : String
  recommendation_type : String
  priority : String
  title : String
  description : String
  estimated_effort : String
  benefits : List String
  implementation_steps : List String
deriving DecidableEq, Repr

structure DbDependency where
  analysis_id : String
  name : String
  type : String
  status : String
  severity : String
  migration_complexity : String
deriving DecidableEq, Repr

structure DbFile where
  analysis_id : String
  filename : String
  upload_status : String
  processed_at_set : Bool
deriving DecidableEq, Repr

/-- The rows a job's database session has accumulated. -/
structure DbState where
  findings : List DbFinding
  recommendations : List DbRecommendation
  dependencies : List DbDependency
  files : List DbFile
deriving DecidableEq, Repr

/-- The `AnalysisFile` update at the end of the per-file loop: mark the
first row matching the analysis id and filename as processed. -/
def markProcessed : List DbFile → String → String → List DbFile
  | [], _, _ => []
  | f :: fs, aid, fn =>
      if f.analysis_id == aid && f.filename == fn then
        { f with upload_status := "processed", processed_at_set := true } :: fs
      else f :: markProcessed fs aid fn

structure MemFinding where
  type : String
  severity : String
  title : String
  file : String
deriving DecidableEq, Repr

structure MemRecommendation where
  type : String
  priority : String
  title : String
  file : String
deriving DecidableEq, Repr

/-- Accumulator state of the per-file loop in `AnalysisAgent.analyze_code`:
the database session plus the in-memory `all_*` lists. -/
structure AgentAccum where
  db : DbState
  all_findings : List MemFinding
  all_recommendations : List MemRecommendation
  all_dependencies : List String
deriving DecidableEq, Repr

structure FileInfo where
  filename : String
  content : String
deriving DecidableEq, Repr

/-- The body of the per-file `try` block of `AnalysisAgent.analyze_code`:
parse, run the three analyzers, persist findings, scanner
recommendations, and outdated dependencies, and mark the file processed. -/
def processFile (parseFn : Grammar → String → Except String TSNode)
    (pyStr : ParseResult → String) (analysis_id : String)
    (acc : AgentAccum) (file_info : FileInfo) : AgentAccum :=
  let code_analysis := parse_code parseFn file_info.filename file_info.content
  let scanner_results := scan_code_for_issues pyStr code_analysis
  let dependency_results := analyze_dependencies code_analysis
  let _cloud_results := analyze_cloud_readiness pyStr code_analysis
  let dbF := acc.db.findings ++ scanner_results.findings.map (fun finding =>
    { analysis_id := analysis_id
      finding_type := "security"
      severity := scanner_results.severity
      title := finding
      description := finding
      location := file_info.filename ++ ":1"
      confidence := 80 })
  let memF := acc.all_findings ++ scanner_results.findings.map (fun finding =>
    { type := "security"
      severity := scanner_results.severity
      title := finding
      file := file_info.filename })
  let dbR := acc.db.recommendations ++ scanner_results.recommendations.map (fun r =>
    { analysis_id := analysis_id
      recommendation_type := "code_quality"
      priority := "high"
      title := r
      description := r
      estimated_effort := "1-2 weeks"
      benefits := ["Improved security", "Better performance"]
      implementation_steps := [r] })
  let memR := acc.all_recommendations ++ scanner_results.recommendations.map (fun r =>
    { type := "code_quality"
      priority := "high"
      title := r
      file := file_info.filename })
  let dbD := acc.db.dependencies ++ dependency_results.outdated_dependencies.map (fun dep =>
    { analysis_id := analysis_id
      name := dep
      type := "library"
      status := "outdated"
      severity := "medium"
      migration_complexity := "moderate" })
  let memD := acc.all_dependencies ++ dependency_results.outdated_dependencies
  { db := { findings := dbF
            recommendations := dbR
            dependencies := dbD
            files := markProcessed acc.db.files analysis_id file_info.filename }
    all_findings := memF
    all_recommendations := memR
    all_dependencies := memD }

/-- The summary dictionary returned by `AnalysisAgent.analyze_code`. -/
structure AgentResult where
  findings : List MemFinding
  recommendations : List MemRecommendation
  dependencies : List String
  files_analyzed : Nat
deriving DecidableEq, Repr

/-- One iteration of the per-file loop of `AnalysisAgent.analyze_code`:
the `try` body runs unless processing this file raises (oracle
`fileRaises`), in which case the `except` branch logs and continues,
leaving the accumulator unchanged. -/
def analyzeStep (parseFn : Grammar → String → Except String TSNode)
    (pyStr : ParseResult → String) (fileRaises : FileInfo → Option String)
    (analysis_id : String) (acc : AgentAccum) (fi : FileInfo) : AgentAccum :=
  match fileRaises fi with
  | some _ => acc
  | none => processFile parseFn pyStr analysis_id acc fi

/-- `AnalysisAgent.analyze_code`: sequential per-file loop; a file whose
processing raises is skipped (`continue`) and contributes nothing;
`files_analyzed` is `len(files)`. -/
def analyze_code (parseFn : Grammar → String → Except String TSNode)
    (pyStr : ParseResult → String) (fileRaises : FileInfo → Option String)
    (analysis_id : String) (files : List FileInfo) (db : DbState) :
    DbState × AgentResult :=
  let acc := files.foldl (analyzeStep parseFn pyStr fileRaises analysis_id)
    { db := db, all_findings := [], all_recommendations := [], all_dependencies := [] }
  (acc.db,
   { findings := acc.all_findings
     recommendations := acc.all_recommendations
     dependencies := acc.all_dependencies
     files_analyzed := files.length })

structure RawFile where
  filename : String
  content : String
deriving DecidableEq, Repr

/-- The upload loop of `create_analysis`: a file whose read/decode raises
(oracle `decodeError`) is skipped; the rest are kept in order. -/
def process_uploaded_files (decodeError : RawFile → Option String) :
    List RawFile → List FileInfo
  | [] => []
  | f :: fs =>
      match decodeError f with
      | some _ => process_uploaded_files decodeError fs
      | none => { filename := f.filename, content := f.content } ::
          process_uploaded_files decodeError fs

/-- The mutable columns of an `Analysis` row that the orchestrator writes. -/
structure JobRecord where
  status : String
  progress : Nat
  error_message : Option String
  completed_at_set : Bool
deriving DecidableEq, Repr

/-- The `Analysis` row as written by `create_analysis`:
`status="processing"`, `progress=0`. -/
def create_analysis_record : JobRecord :=
  { status := "processing", progress := 0, error_message := none, completed_at_set := false }

/-- `run_analysis`: set progress to 25, run the agent, then mark the job
completed at progress 100; any exception raised at the orchestration level
(oracles `progressCommitError` for the first commit, `finalError` for the
analysis/aggregation commits) transitions the job to `failed` with the
captured message.  Returns the final row, the database state, and the
sequence of row states written after creation. -/
def run_analysis (parseFn : Grammar → String → Except String TSNode)
    (pyStr : ParseResult → String) (fileRaises : FileInfo → Option String)
    (progressCommitError finalError : Option String)
    (analysis_id : String) (files : List FileInfo) (job : JobRecord)
    (db : DbState) : JobRecord × DbState × List JobRecord :=
  match progressCommitError with
  | some m =>
      let jf := { job with status := "failed", error_message := some m }
      (jf, db, [jf])
  | none =>
      let j1 := { job with progress := 25 }
      let res := analyze_code parseFn pyStr fileRaises analysis_id files db
      match finalError with
      | some m =>
          let jf := { j1 with status := "failed", error_message := some m }
          (jf, res.1, [j1, jf])
      | none =>
          let j2 := { j1 with status := "completed", progress := 100, completed_at_set := true }
          (j2, res.1, [j1, j2])

/-- The full sequence of `Analysis` row states observed over a job's life,
starting from the row written by `create_analysis`. -/
def jobTrace (parseFn : Grammar → String → Except String TSNode)
    (pyStr : ParseResult → String) (fileRaises : FileInfo → Option String)
    (progressCommitError finalError : Option String)
    (analysis_id : String) (files : List FileInfo) (db : DbState) :
    List JobRecord :=
  create_analysis_record ::
    (run_analysis parseFn pyStr fileRaises progressCommitError finalError
      analysis_id files create_analysis_record db).2.2

/-! ## Helper lemmas and specification-side notions -/

/-- A node whose kind is in the decision-type set (the nodes the spec says
the complexity walk counts). -/
def isDecisionNode (n : TSNode) : Bool :=
  decide (n.type ∈ decision_types)

/-- A detached `if` node with no children. -/
def ifLeaf : TSNode := .node "if_statement" "" 0 0 []

/-- `AddsIfLeaf t t'` holds when `t'` is `t` with one extra `if` node
inserted as a new child of some node, at any nesting depth. -/
inductive AddsIfLeaf : TSNode → TSNode → Prop where
  | here (ty tx : String) (s e : Nat) (pre post : List TSNode) :
      AddsIfLeaf (.node ty tx s e (pre ++ post)) (.node ty tx s e (pre ++ ifLeaf :: post))
  | deeper (ty tx : String) (s e : Nat) (pre post : List TSNode) (c c' : TSNode) :
      AddsIfLeaf c c' →
      AddsIfLeaf (.node ty tx s e (pre ++ c :: post)) (.node ty tx s e (pre ++ c' :: post))

theorem countDecisionsList_append (l1 l2 : List TSNode) :
    countDecisionsList (l1 ++ l2) = countDecisionsList l1 + countDecisionsList l2 := by
  induction l1 with
  | nil => simp [countDecisionsList]
  | cons c cs ih => simp [countDecisionsList, ih]; omega

theorem addsIfLeaf_countDecisions {t t' : TSNode} (h : AddsIfLeaf t t') :
    countDecisions t' = countDecisions t + 1 := by
  induction h with
  | here ty tx s e pre post =>
      simp [countDecisions, countDecisionsList_append, countDecisionsList, ifLeaf,
        decision_types]
      omega
  | deeper ty tx s e pre post c c' hcc ih =>
      simp [countDecisions, countDecisionsList_append, countDecisionsList, ih]
      omega

mutual

theorem countDecisions_spec : ∀ t : TSNode,
    countDecisions t = (allNodes t).countP isDecisionNode
  | .node ty tx s e cs => by
      have h := countDecisionsList_spec cs
      simp [countDecisions, allNodes, List.countP_cons, isDecisionNode, TSNode.type, h]
      by_cases hm : ty ∈ decision_types
      · simp [hm]
        try omega
      · simp [hm]
        try omega

theorem countDecisionsList_spec : ∀ l : List TSNode,
    countDecisionsList l = (allNodesList l).countP isDecisionNode
  | [] => by simp [countDecisionsList, allNodesList]
  | c :: cs => by
      have h1 := countDecisions_spec c
      have h2 := countDecisionsList_spec cs
      simp [countDecisionsList, allNodesList, List.countP_append, h1, h2]

end

theorem filterMapIfLength {α β : Type} (p : α → Bool) (h : α → β) :
    ∀ l : List α,
      (l.filterMap (fun a => if p a then some (h a) else none)).length =
        (l.filter p).length := by
  intro l
  induction l with
  | nil => rfl
  | cons a l ih => cases hp : p a <;> simp [List.filterMap_cons, List.filter_cons, hp, ih]

theorem dictGet_default {α : Type} :
    ∀ (l : List (String × α)) (key : String) (dflt : α),
      key ∉ l.map Prod.fst → dictGet l key dflt = dflt := by
  intro l
  induction l with
  | nil => intro key dflt _; rfl
  | cons p rest ih =>
      intro key dflt h
      obtain ⟨k, v⟩ := p
      simp only [List.map_cons, List.mem_cons, not_or] at h
      simp [dictGet, h.1, ih key dflt h.2]

theorem foldl_analyzeStep_filter (parseFn : Grammar → String → Except String TSNode)
    (pyStr : ParseResult → String) (fileRaises : FileInfo → Option String)
    (analysis_id : String) :
    ∀ (files : List FileInfo) (acc : AgentAccum),
      files.foldl (analyzeStep parseFn pyStr fileRaises analysis_id) acc =
        (files.filter (fun fi => (fileRaises fi).isNone)).foldl
          (processFile parseFn pyStr analysis_id) acc := by
  intro files
  induction files with
  | nil => intro acc; rfl
  | cons fi rest ih =>
      intro acc
      cases hf : fileRaises fi <;>
        simp [List.foldl_cons, List.filter_cons, hf, ih, analyzeStep]

/-! ## Concrete inputs used by witnesses and counterexamples -/

/-- A parsing oracle that always raises. -/
def cNoParse : Grammar → String → Except String TSNode :=
  fun _ _ => Except.error "tree-sitter unavailable"

/-- A serialization oracle returning the empty string. -/
def cEmptyStr : ParseResult → String := fun _ => ""

/-- A per-file exception oracle that never raises. -/
def cNoRaise : FileInfo → Option String := fun _ => none

/-- An empty database session. -/
def cEmptyDb : DbState :=
  { findings := [], recommendations := [], dependencies := [], files := [] }

/-- Two submitted files. -/
def cFiles : List FileInfo :=
  [{ filename := "good.py", content := "x = 1" },
   { filename := "bad.py", content := "y = 2" }]

/-- An exception oracle under which exactly the second file raises. -/
def cBadRaises : FileInfo → Option String :=
  fun fi => if fi.filename == "bad.py" then some "analyzer crashed" else none

/-- A Python module whose only child is a class wrapping a nested method. -/
def cNestedTree : TSNode :=
  .node "module" "class A:\n    def m(self):\n        pass" 0 2
    [.node "class_definition" "class A:\n    def m(self):\n        pass" 0 2
      [.node "identifier" "A" 0 0 [],
       .node "block" "def m(self):\n        pass" 1 2
         [.node "function_definition" "def m(self):\n        pass" 1 2
           [.node "identifier" "m" 1 1 []]]]]

/-- A JavaScript tree with a root-level function declaration. -/
def cJsTree : TSNode :=
  .node "program" "function f() { return 1 }" 0 0
    [.node "function_declaration" "function f() { return 1 }" 0 0
      [.node "identifier" "f" 0 0 []]]

/-- A C# tree with a root-level method declaration. -/
def cCsTree : TSNode :=
  .node "compilation_unit" "int F() { return 1; }" 0 0
    [.node "method_declaration" "int F() { return 1; }" 0 0
      [.node "identifier" "F" 0 0 []]]

/-- A Python module importing a string that contains `log4j`. -/
def cLog4jTree : TSNode :=
  .node "module" "import log4j" 0 0
    [.node "import_statement" "import log4j" 0 0 []]

/-- A parsing oracle returning `cLog4jTree`. -/
def cLog4jParse : Grammar → String → Except String TSNode :=
  fun _ _ => Except.ok cLog4jTree

/-- The submitted Python file whose import mentions log4j. -/
def cPyFile : FileInfo := { filename := "legacy.py", content := "import log4j" }

/-- A tree with no decision nodes. -/
def cPlainTree : TSNode :=
  .node "module" "x = 1" 0 0 [.node "expression_statement" "x = 1" 0 0 []]

/-- `cPlainTree` with one extra `if` node appended to the root's children. -/
def cPlainTreePlusIf : TSNode :=
  .node "module" "x = 1" 0 0 [.node "expression_statement" "x = 1" 0 0 [], ifLeaf]

/-! ## Claims -/

/-- C3: feature extraction scans only the immediate children of the tree
root.  Every function, class, or import entry the extractor reports
corresponds to a direct child of the root with the matching declaration
kind (same line span, resp. same raw text), and when no direct child has
the matching kind the extractor reports nothing, whatever is nested
deeper in the tree. -/
theorem claim_C3 : ∀ (root : TSNode) (lang : String),
    (∀ f ∈ extract_functions root lang, ∃ c ∈ root.children,
        (c.type = "method_declaration" ∨ c.type = "function_definition") ∧
        f.start_line = c.startLine ∧ f.end_line = c.endLine) ∧
    (∀ k ∈ extract_classes root lang, ∃ c ∈ root.children,
        (c.type = "class_declaration" ∨ c.type = "class_definition") ∧
        k.start_line = c.startLine ∧ k.end_line = c.endLine) ∧
    (∀ s ∈ extract_imports root lang, ∃ c ∈ root.children, s = c.text) ∧
    ((∀ c ∈ root.children,
        c.type ≠ "method_declaration" ∧ c.type ≠ "function_definition") →
      extract_functions root lang = []) ∧
    ((∀ c ∈ root.children,
        c.type ≠ "class_declaration" ∧ c.type ≠ "class_definition") →
      extract_classes root lang = []) ∧
    ((∀ c ∈ root.children,
        c.type ≠ "import_declaration" ∧ c.type ≠ "import_statement" ∧
          c.type ≠ "import_from_statement") →
      extract_imports root lang = []) := by
  intro root lang
  refine ⟨?_, ?_, ?_, ?_, ?_, ?_⟩
  · intro f hf
    simp only [extract_functions] at hf
    split at hf
    · rw [List.mem_filterMap] at hf
      obtain ⟨c, hc, hfc⟩ := hf
      split at hfc
      · rename_i hty
        cases hfc
        exact ⟨c, hc, Or.inl (by simpa using hty), rfl, rfl⟩
      · simp at hfc
    · split at hf
      · rw [List.mem_filterMap] at hf
        obtain ⟨c, hc, hfc⟩ := hf
        split at hfc
        · rename_i hty
          cases hfc
          exact ⟨c, hc, Or.inr (by simpa using hty), rfl, rfl⟩
        · simp at hfc
      · simp at hf
  · intro k hk
    simp only [extract_classes] at hk
    split at hk
    · rw [List.mem_filterMap] at hk
      obtain ⟨c, hc, hkc⟩ := hk
      split at hkc
      · rename_i hty
        cases hkc
        exact ⟨c, hc, Or.inl (by simpa using hty), rfl, rfl⟩
      · simp at hkc
    · split at hk
      · rw [List.mem_filterMap] at hk
        obtain ⟨c, hc, hkc⟩ := hk
        split at hkc
        · rename_i hty
          cases hkc
          exact ⟨c, hc, Or.inr (by simpa using hty), rfl, rfl⟩
        · simp at hkc
      · simp at hk
  · intro s hs
    simp only [extract_imports] at hs
    split at hs
    · rw [List.mem_filterMap] at hs
      obtain ⟨c, hc, hsc⟩ := hs
      split at hsc
      · cases hsc
        exact ⟨c, hc, rfl⟩
      · simp at hsc
    · split at hs
      · rw [List.mem_filterMap] at hs
        obtain ⟨c, hc, hsc⟩ := hs
        split at hsc
        · cases hsc
          exact ⟨c, hc, rfl⟩
        · simp at hsc
      · simp at hs
  · intro hnone
    simp only [extract_functions]
    split
    · rw [List.filterMap_eq_nil_iff]
      intro c hc
      simp [(hnone c hc).1]
    · split
      · rw [List.filterMap_eq_nil_iff]
        intro c hc
        simp [(hnone c hc).2]
      · rfl
  · intro hnone
    simp only [extract_classes]
    split
    · rw [List.filterMap_eq_nil_iff]
      intro c hc
      simp [(hnone c hc).1]
    · split
      · rw [List.filterMap_eq_nil_iff]
        intro c hc
        simp [(hnone c hc).2]
      · rfl
  · intro hnone
    simp only [extract_imports]
    split
    · rw [List.filterMap_eq_nil_iff]
      intro c hc
      simp [(hnone c hc).1]
    · split
      · rw [List.filterMap_eq_nil_iff]
        intro c hc
        simp [(hnone c hc).2.1, (hnone c hc).2.2]
      · rfl

/-- C3 witness: a Python module whose only root child is a class wrapping
a nested method reports no top-level function. -/
theorem claim_C3_witness : extract_functions cNestedTree "python" = [] :=
  (claim_C3 cNestedTree "python").2.2.2.1 (by decide)

/-- C4: cyclomatic complexity is 1 plus the number of nodes anywhere in
the full tree whose kind is a decision type (if/while/for/case/catch), so
it is always at least 1, exactly 1 on a tree with zero decision nodes,
and inserting one `if` node anywhere, at any nesting depth, increments it
by exactly 1.  `calculate_complexity` takes no language parameter, so the
same decision-node tag set applies for every language. -/
theorem claim_C4 : ∀ (t t' : TSNode),
    calculate_complexity t = 1 + (allNodes t).countP isDecisionNode ∧
    1 ≤ calculate_complexity t ∧
    ((allNodes t).countP isDecisionNode = 0 → calculate_complexity t = 1) ∧
    (AddsIfLeaf t t' → calculate_complexity t' = calculate_complexity t + 1) := by
  intro t t'
  have hspec := countDecisions_spec t
  refine ⟨by simp [calculate_complexity, hspec], by simp [calculate_complexity], ?_, ?_⟩
  · intro h0
    simp [calculate_complexity, hspec, h0]
  · intro hadd
    simp [calculate_complexity, addsIfLeaf_countDecisions hadd]
    omega

/-- C4 witness: the decision-free tree `cPlainTree` has complexity 1, and
inserting one `if` node raises the complexity to 2. -/
theorem claim_C4_witness :
    calculate_complexity cPlainTree = 1 ∧
    calculate_complexity cPlainTreePlusIf = calculate_complexity cPlainTree + 1 :=
  ⟨(claim_C4 cPlainTree cPlainTree).2.2.1 (by decide),
   (claim_C4 cPlainTree cPlainTreePlusIf).2.2.2
     (AddsIfLeaf.here "module" "x = 1" 0 0
       [.node "expression_statement" "x = 1" 0 0 []] [])⟩

/-- C5: a filename whose lower-cased extension is not a key of the
extension table detects as `unknown`, and parsing such a file yields
complexity 0, empty functions, classes and imports, and a line count
equal to the number of newline-separated segments of the content, which
is 1 for empty content. -/
theorem claim_C5 : ∀ (filename content : String)
    (parseFn : Grammar → String → Except String TSNode),
    pyLower (pathSuffix filename) ∉ language_map.map Prod.fst →
    detect_language filename content = "unknown" ∧
    parse_code parseFn filename content =
      { language := "unknown", functions := [], classes := [], imports := [],
        complexity := 0, lines_of_code := (pySplit content '\n').length,
        error := none } ∧
    (content = "" → (pySplit content '\n').length = 1) := by
  intro filename content parseFn h
  have hd : detect_language filename content = "unknown" :=
    dictGet_default language_map (pyLower (pathSuffix filename)) "unknown" h
  refine ⟨hd, ?_, ?_⟩
  · simp [parse_code, hd]
  · intro hc
    subst hc
    rfl

/-- C5 witness: extension `.xyz` is unrecognized and empty content parses
to one line. -/
theorem claim_C5_witness :
    detect_language "data.xyz" "" = "unknown" ∧
    parse_code cNoParse "data.xyz" "" =
      { language := "unknown", functions := [], classes := [], imports := [],
        complexity := 0, lines_of_code := (pySplit "" '\n').length,
        error := none } ∧
    (("" : String) = "" → (pySplit "" '\n').length = 1) :=
  claim_C5 "data.xyz" "" cNoParse (by decide)

/-- C10: filenames with extension `.cobol`, `.cbl` or `.cob` detect as
`cobol`, a tag that is neither `unknown` nor a key of the grammar
registry, so `parse_code` does not take the unknown-language degraded
branch: it runs the try branch, whose grammar lookup falls back to the
Java grammar. -/
theorem claim_C10 : ∀ (filename content : String)
    (parseFn : Grammar → String → Except String TSNode),
    (pyLower (pathSuffix filename) = ".cobol" ∨
     pyLower (pathSuffix filename) = ".cbl" ∨
     pyLower (pathSuffix filename) = ".cob") →
    detect_language filename content = "cobol" ∧
    "cobol" ∉ language_parsers.map Prod.fst ∧
    "cobol" ≠ "unknown" ∧
    lookupParser "cobol" = Grammar.java ∧
    parse_code parseFn filename content = parse_with_grammar parseFn "cobol" content := by
  intro filename content parseFn h
  have hd : detect_language filename content = "cobol" := by
    show dictGet language_map (pyLower (pathSuffix filename)) "unknown" = "cobol"
    rcases h with h | h | h <;> rw [h] <;> rfl
  refine ⟨hd, by decide, by decide, by decide, ?_⟩
  simp [parse_code, hd]

/-- C10 witness: `legacy.cobol` detects as `cobol` and is parsed through
the try branch with the fallback Java grammar. -/
theorem claim_C10_witness :
    detect_language "legacy.cobol" "MOVE A TO B" = "cobol" ∧
    "cobol" ∉ language_parsers.map Prod.fst ∧
    "cobol" ≠ "unknown" ∧
    lookupParser "cobol" = Grammar.java ∧
    parse_code cNoParse "legacy.cobol" "MOVE A TO B" =
      parse_with_grammar cNoParse "cobol" "MOVE A TO B" :=
  claim_C10 "legacy.cobol" "MOVE A TO B" cNoParse (Or.inl (by decide))

theorem process_uploaded_files_filter (decodeError : RawFile → Option String) :
    ∀ rawFiles : List RawFile,
      process_uploaded_files decodeError rawFiles =
        (rawFiles.filter (fun f => (decodeError f).isNone)).map
          (fun f => { filename := f.filename, content := f.content }) := by
  intro l
  induction l with
  | nil => rfl
  | cons f fs ih =>
      cases hf : decodeError f <;>
        simp [process_uploaded_files, List.filter_cons, hf, ih]

theorem depFoldSpec : ∀ (imports : List String) (acc : List String × List String),
    (imports.foldl depStep acc).1 =
      acc.1 ++ imports.filterMap (fun s =>
        if strContains (pyLower s) "spring" && strContains (pyLower s) "1.5" then
          some "Spring Boot 1.5 (deprecated)"
        else none) ∧
    (imports.foldl depStep acc).2 =
      acc.2 ++ imports.filterMap (fun s =>
        if strContains (pyLower s) "log4j" then
          some "Log4j (security vulnerability)"
        else none) := by
  intro l
  induction l with
  | nil => intro acc; simp
  | cons s rest ih =>
      intro acc
      have h1 := (ih (depStep acc s)).1
      have h2 := (ih (depStep acc s)).2
      constructor
      · rw [List.foldl_cons, h1, List.filterMap_cons]
        cases hs : strContains (pyLower s) "spring" && strContains (pyLower s) "1.5" <;>
          cases hl : strContains (pyLower s) "log4j" <;>
            simp [depStep, hs, hl]
      · rw [List.foldl_cons, h2, List.filterMap_cons]
        cases hs : strContains (pyLower s) "spring" && strContains (pyLower s) "1.5" <;>
          cases hl : strContains (pyLower s) "log4j" <;>
            simp [depStep, hs, hl]

theorem processFile_dep_status
    (parseFn : Grammar → String → Except String TSNode)
    (pyStr : ParseResult → String) (aid : String) (acc : AgentAccum) (fi : FileInfo)
    (h : ∀ d ∈ acc.db.dependencies, d.status = "outdated") :
    ∀ d ∈ (processFile parseFn pyStr aid acc fi).db.dependencies,
      d.status = "outdated" := by
  intro d hd
  simp only [processFile] at hd
  rw [List.mem_append] at hd
  rcases hd with hd | hd
  · exact h d hd
  · obtain ⟨x, _, rfl⟩ := List.mem_map.mp hd
    rfl

theorem analyzeFold_dep_status
    (parseFn : Grammar → String → Except String TSNode)
    (pyStr : ParseResult → String) (fileRaises : FileInfo → Option String)
    (aid : String) :
    ∀ (files : List FileInfo) (acc : AgentAccum),
      (∀ d ∈ acc.db.dependencies, d.status = "outdated") →
      ∀ d ∈ (files.foldl (analyzeStep parseFn pyStr fileRaises aid)
          acc).db.dependencies,
        d.status = "outdated" := by
  intro files
  induction files with
  | nil => intro acc h; exact h
  | cons fi rest ih =>
      intro acc h
      rw [List.foldl_cons]
      cases hf : fileRaises fi with
      | none =>
          have hstep : analyzeStep parseFn pyStr fileRaises aid acc fi =
              processFile parseFn pyStr aid acc fi := by
            simp [analyzeStep, hf]
          rw [hstep]
          exact ih _ (processFile_dep_status parseFn pyStr aid acc fi h)
      | some m =>
          have hstep : analyzeStep parseFn pyStr fileRaises aid acc fi = acc := by
            simp [analyzeStep, hf]
          rw [hstep]
          exact ih _ h

/-- C1 (amended): the summary's `files_analyzed` field always equals the
total number of submitted files, even when some files' processing raises;
a job with per-file failures and no orchestration-level failure still
ends `completed` with progress 100. -/
theorem claim_C1_amended : ∀ (parseFn : Grammar → String → Except String TSNode)
    (pyStr : ParseResult → String) (fileRaises : FileInfo → Option String)
    (analysis_id : String) (files : List FileInfo) (job : JobRecord) (db : DbState),
    (analyze_code parseFn pyStr fileRaises analysis_id files db).2.files_analyzed =
      files.length ∧
    (run_analysis parseFn pyStr fileRaises none none analysis_id files job db).1.status =
      "completed" ∧
    (run_analysis parseFn pyStr fileRaises none none analysis_id files job db).1.progress =
      100 := by
  intro parseFn pyStr fr aid files job db
  refine ⟨?_, ?_, ?_⟩ <;> simp [analyze_code, run_analysis]

/-- C1 counterexample: a job with 2 submitted files of which exactly one
raises ends `completed`, but `files_analyzed` is 2, not strictly less
than 2 as the claim states. -/
theorem claim_C1_counterexample :
    cFiles.length = 2 ∧
    cBadRaises { filename := "good.py", content := "x = 1" } = none ∧
    cBadRaises { filename := "bad.py", content := "y = 2" } = some "analyzer crashed" ∧
    (run_analysis cNoParse cEmptyStr cBadRaises none none "job1" cFiles
        create_analysis_record cEmptyDb).1.status = "completed" ∧
    (analyze_code cNoParse cEmptyStr cBadRaises "job1" cFiles cEmptyDb).2.files_analyzed = 2 ∧
    ¬ (analyze_code cNoParse cEmptyStr cBadRaises "job1" cFiles cEmptyDb).2.files_analyzed < 2 := by
  decide

/-- C2: a per-file exception skips exactly that file — the database state
and the accumulated findings, recommendations and dependency names are
those of a run over the non-raising files only, and a decode error in the
upload loop likewise drops exactly that file; with no orchestration-level
exception the job still reaches `completed`, while an orchestration-level
exception (at the first progress commit or at the aggregation commits)
transitions the job to `failed` with the captured message. -/
theorem claim_C2 : ∀ (parseFn : Grammar → String → Except String TSNode)
    (pyStr : ParseResult → String) (fileRaises : FileInfo → Option String)
    (decodeError : RawFile → Option String) (analysis_id : String)
    (files : List FileInfo) (rawFiles : List RawFile) (job : JobRecord)
    (db : DbState) (m : String),
    (analyze_code parseFn pyStr fileRaises analysis_id files db).1 =
      (analyze_code parseFn pyStr (fun _ => none) analysis_id
        (files.filter (fun fi => (fileRaises fi).isNone)) db).1 ∧
    (analyze_code parseFn pyStr fileRaises analysis_id files db).2.findings =
      (analyze_code parseFn pyStr (fun _ => none) analysis_id
        (files.filter (fun fi => (fileRaises fi).isNone)) db).2.findings ∧
    (analyze_code parseFn pyStr fileRaises analysis_id files db).2.recommendations =
      (analyze_code parseFn pyStr (fun _ => none) analysis_id
        (files.filter (fun fi => (fileRaises fi).isNone)) db).2.recommendations ∧
    (analyze_code parseFn pyStr fileRaises analysis_id files db).2.dependencies =
      (analyze_code parseFn pyStr (fun _ => none) analysis_id
        (files.filter (fun fi => (fileRaises fi).isNone)) db).2.dependencies ∧
    process_uploaded_files decodeError rawFiles =
      (rawFiles.filter (fun f => (decodeError f).isNone)).map
        (fun f => { filename := f.filename, content := f.content }) ∧
    (run_analysis parseFn pyStr fileRaises none none analysis_id files job db).1.status =
      "completed" ∧
    ((run_analysis parseFn pyStr fileRaises none (some m) analysis_id files job db).1.status =
        "failed" ∧
      (run_analysis parseFn pyStr fileRaises none (some m) analysis_id files
          job db).1.error_message = some m) ∧
    ((run_analysis parseFn pyStr fileRaises (some m) none analysis_id files job db).1.status =
        "failed" ∧
      (run_analysis parseFn pyStr fileRaises (some m) none analysis_id files
          job db).1.error_message = some m) := by
  intro parseFn pyStr fr de aid files rawFiles job db m
  have key := foldl_analyzeStep_filter parseFn pyStr fr aid files
    { db := db, all_findings := [], all_recommendations := [],
      all_dependencies := [] }
  refine ⟨?_, ?_, ?_, ?_, process_uploaded_files_filter de rawFiles, ?_, ⟨?_, ?_⟩, ⟨?_, ?_⟩⟩ <;>
    first
      | (simp only [analyze_code]; rw [key]; exact rfl)
      | simp [run_analysis]

/-- C6 counterexample: a concrete job that reaches `completed` never
passes through the states `scanning_code`, `analyzing_dependencies` or
`generating_recommendations`, and never shows progress 50 or 75. -/
theorem claim_C6_counterexample :
    (jobTrace cNoParse cEmptyStr cNoRaise none none "job1" cFiles cEmptyDb).map
        JobRecord.status = ["processing", "processing", "completed"] ∧
    "scanning_code" ∉ (jobTrace cNoParse cEmptyStr cNoRaise none none "job1" cFiles
        cEmptyDb).map JobRecord.status ∧
    "analyzing_dependencies" ∉ (jobTrace cNoParse cEmptyStr cNoRaise none none "job1"
        cFiles cEmptyDb).map JobRecord.status ∧
    "generating_recommendations" ∉ (jobTrace cNoParse cEmptyStr cNoRaise none none "job1"
        cFiles cEmptyDb).map JobRecord.status ∧
    ∀ j ∈ jobTrace cNoParse cEmptyStr cNoRaise none none "job1" cFiles cEmptyDb,
      j.progress ≠ 50 ∧ j.progress ≠ 75 := by
  decide

/-- C6 (amended): the observed status/progress sequence of every job is
`processing`@0 then `failed`@0 (first commit raises), or `processing`@0,
`processing`@25, `failed`@25 (aggregation raises), or `processing`@0,
`processing`@25, `completed`@100; no other state or progress value is
ever written. -/
theorem claim_C6_amended : ∀ (parseFn : Grammar → String → Except String TSNode)
    (pyStr : ParseResult → String) (fileRaises : FileInfo → Option String)
    (e1 e2 : Option String) (analysis_id : String) (files : List FileInfo)
    (db : DbState),
    (jobTrace parseFn pyStr fileRaises e1 e2 analysis_id files db).map
        (fun j => (j.status, j.progress)) =
      match e1, e2 with
      | some _, _ => [("processing", 0), ("failed", 0)]
      | none, some _ => [("processing", 0), ("processing", 25), ("failed", 25)]
      | none, none => [("processing", 0), ("processing", 25), ("completed", 100)] := by
  intro parseFn pyStr fr e1 e2 aid files db
  cases e1 <;> cases e2 <;>
    simp [jobTrace, run_analysis, create_analysis_record]

/-- The job trace of a concrete run whose first progress commit raises. -/
def cFailTrace : List JobRecord :=
  jobTrace cNoParse cEmptyStr cNoRaise (some "database connection lost") none
    "job1" cFiles cEmptyDb

/-- The final job row of that failing run. -/
def cFailFinal : JobRecord :=
  (run_analysis cNoParse cEmptyStr cNoRaise (some "database connection lost") none
    "job1" cFiles create_analysis_record cEmptyDb).1

/-- C7: over a job's life the written progress values are non-decreasing
at every update, the last written row is the job's final row, and the job
terminates either `completed` at progress exactly 100 with the completion
timestamp set and no error message, or `failed` below 100 carrying the
captured exception message, which is non-empty whenever the raised
exception's message is. -/
theorem claim_C7 : ∀ (parseFn : Grammar → String → Except String TSNode)
    (pyStr : ParseResult → String) (fileRaises : FileInfo → Option String)
    (e1 e2 : Option String) (analysis_id : String) (files : List FileInfo)
    (db : DbState),
    (∀ m, e1 = some m → m ≠ "") →
    (∀ m, e2 = some m → m ≠ "") →
    List.Chain' (fun a b => a.progress ≤ b.progress)
      (jobTrace parseFn pyStr fileRaises e1 e2 analysis_id files db) ∧
    (jobTrace parseFn pyStr fileRaises e1 e2 analysis_id files db).getLast? =
      some (run_analysis parseFn pyStr fileRaises e1 e2 analysis_id files
        create_analysis_record db).1 ∧
    (((run_analysis parseFn pyStr fileRaises e1 e2 analysis_id files
          create_analysis_record db).1.status = "completed" ∧
      (run_analysis parseFn pyStr fileRaises e1 e2 analysis_id files
          create_analysis_record db).1.progress = 100 ∧
      (run_analysis parseFn pyStr fileRaises e1 e2 analysis_id files
          create_analysis_record db).1.completed_at_set = true ∧
      (run_analysis parseFn pyStr fileRaises e1 e2 analysis_id files
          create_analysis_record db).1.error_message = none) ∨
     ((run_analysis parseFn pyStr fileRaises e1 e2 analysis_id files
          create_analysis_record db).1.status = "failed" ∧
      (run_analysis parseFn pyStr fileRaises e1 e2 analysis_id files
          create_analysis_record db).1.progress < 100 ∧
      ∃ m, (run_analysis parseFn pyStr fileRaises e1 e2 analysis_id files
          create_analysis_record db).1.error_message = some m ∧ m ≠ "")) := by
  intro parseFn pyStr fr e1 e2 aid files db h1 h2
  cases e1 with
  | some m =>
      refine ⟨?_, ?_, Or.inr ⟨?_, ?_, m, ?_, h1 m rfl⟩⟩ <;>
        simp [jobTrace, run_analysis, create_analysis_record]
  | none =>
      cases e2 with
      | some m =>
          refine ⟨?_, ?_, Or.inr ⟨?_, ?_, m, ?_, h2 m rfl⟩⟩ <;>
            simp [jobTrace, run_analysis, create_analysis_record]
      | none =>
          refine ⟨?_, ?_, Or.inl ⟨?_, ?_, ?_, ?_⟩⟩ <;>
            simp [jobTrace, run_analysis, create_analysis_record]

/-- C7 witness: a run whose first progress commit raises with message
`database connection lost` exhibits a non-decreasing trace ending in a
`failed` row below progress 100 with that non-empty message. -/
theorem claim_C7_witness :
    List.Chain' (fun a b => a.progress ≤ b.progress) cFailTrace ∧
    cFailTrace.getLast? = some cFailFinal ∧
    ((cFailFinal.status = "completed" ∧ cFailFinal.progress = 100 ∧
        cFailFinal.completed_at_set = true ∧ cFailFinal.error_message = none) ∨
     (cFailFinal.status = "failed" ∧ cFailFinal.progress < 100 ∧
        ∃ m, cFailFinal.error_message = some m ∧ m ≠ "")) :=
  claim_C7 cNoParse cEmptyStr cNoRaise (some "database connection lost") none
    "job1" cFiles cEmptyDb
    (fun m hm => by cases hm; decide)
    (fun m hm => by cases hm)

/-- C8 counterexample: a Python file whose import mentions `log4j` is
classified vulnerable by the dependency analyzer, yet after the full
agent run the database holds no Dependency row at all — vulnerable
matches are never persisted. -/
theorem claim_C8_counterexample :
    (analyze_dependencies
        (parse_code cLog4jParse "legacy.py" "import log4j")).vulnerable_dependencies =
      ["Log4j (security vulnerability)"] ∧
    (analyze_code cLog4jParse cEmptyStr cNoRaise "job1" [cPyFile] cEmptyDb).1.dependencies =
      [] := by
  decide

/-- C8 (amended): the dependency analyzer's classification is
language-agnostic — it depends only on the raw import strings, and any
an import whose lower-cased text contains `log4j` yields the vulnerable
classification, with the fixed generic upgrade recommendations always
attached; but a Dependency row is emitted and persisted only for
outdated matches: every row the agent run persists has status
`outdated`, so vulnerable matches never produce a persisted entry. -/
theorem claim_C8_amended : ∀ (ci ci' : ParseResult) (s : String)
    (parseFn : Grammar → String → Except String TSNode)
    (pyStr : ParseResult → String) (fileRaises : FileInfo → Option String)
    (analysis_id : String) (files : List FileInfo) (db : DbState),
    (ci.imports = ci'.imports → analyze_dependencies ci = analyze_dependencies ci') ∧
    (s ∈ ci.imports → strContains (pyLower s) "log4j" = true →
      "Log4j (security vulnerability)" ∈
        (analyze_dependencies ci).vulnerable_dependencies) ∧
    (analyze_dependencies ci).recommendations =
      ["Upgrade Spring Boot to 3.x", "Replace Log4j with Logback"] ∧
    (db.dependencies = [] →
      ∀ d ∈ (analyze_code parseFn pyStr fileRaises analysis_id files db).1.dependencies,
        d.status = "outdated") := by
  intro ci ci' s parseFn pyStr fr aid files db
  refine ⟨?_, ?_, rfl, ?_⟩
  · intro h
    simp [analyze_dependencies, h]
  · intro hs hl
    have h := (depFoldSpec ci.imports ([], [])).2
    simp only [analyze_dependencies]
    rw [h]
    simp only [List.nil_append]
    exact List.mem_filterMap.mpr ⟨s, hs, by simp [hl]⟩
  · intro hdb
    simp only [analyze_code]
    exact analyzeFold_dep_status parseFn pyStr fr aid files _ (by simp [hdb])

/-- C8 witness: the log4j-importing Python file's import is classified
vulnerable by the (language-agnostic) dependency analyzer. -/
theorem claim_C8_witness :
    "Log4j (security vulnerability)" ∈
      (analyze_dependencies
        (parse_code cLog4jParse "legacy.py" "import log4j")).vulnerable_dependencies :=
  (claim_C8_amended (parse_code cLog4jParse "legacy.py" "import log4j")
      (parse_code cLog4jParse "legacy.py" "import log4j") "import log4j"
      cLog4jParse cEmptyStr cNoRaise "job1" [cPyFile] cEmptyDb).2.1
    (by decide) (by decide)

/-- C9 counterexample: a JavaScript tree whose root child is a
`function_declaration` and a C# tree whose root child is a
`method_declaration` both extract to an empty function list — there is
no extraction rule table for JavaScript or C#. -/
theorem claim_C9_counterexample :
    cJsTree.children.map TSNode.type = ["function_declaration"] ∧
    extract_functions cJsTree "javascript" = [] ∧
    cCsTree.children.map TSNode.type = ["method_declaration"] ∧
    extract_functions cCsTree "csharp" = [] := by
  decide

/-- C9 (amended): grammars are registered for all four languages
java/javascript/python/csharp, but extraction rule tables exist only for
Java and Python: for any other language tag the extractor returns empty
functions, classes and imports whatever the tree contains, while for
Java and Python each root-level declaration of the matching kind yields
exactly one extracted function. -/
theorem claim_C9_amended : ∀ (root : TSNode) (lang : String)
    (ty tx : String) (s e : Nat) (cs : List TSNode),
    language_parsers.map Prod.fst = ["java", "javascript", "python", "csharp"] ∧
    (lang ≠ "java" → lang ≠ "python" →
      extract_functions root lang = [] ∧ extract_classes root lang = [] ∧
        extract_imports root lang = []) ∧
    (extract_functions (.node ty tx s e cs) "java").length =
      (cs.filter (fun c => c.type == "method_declaration")).length ∧
    (extract_functions (.node ty tx s e cs) "python").length =
      (cs.filter (fun c => c.type == "function_definition")).length := by
  intro root lang ty tx s e cs
  refine ⟨rfl, ?_, ?_, ?_⟩
  · intro h1 h2
    refine ⟨?_, ?_, ?_⟩ <;>
      simp [extract_functions, extract_classes, extract_imports, h1, h2]
  · have hunfold : extract_functions (.node ty tx s e cs) "java" =
        cs.filterMap (fun child =>
          if child.type == "method_declaration" then
            some { name := get_node_text_typed child "identifier"
                   type := "method"
                   parameters := get_method_parameters child
                   start_line := child.startLine
                   end_line := child.endLine }
          else none) := rfl
    rw [hunfold]
    exact filterMapIfLength _ _ cs
  · have hunfold : extract_functions (.node ty tx s e cs) "python" =
        cs.filterMap (fun child =>
          if child.type == "function_definition" then
            some { name := get_node_text_typed child "identifier"
                   type := "function"
                   parameters := get_function_parameters child
                   start_line := child.startLine
                   end_line := child.endLine }
          else none) := rfl
    rw [hunfold]
    exact filterMapIfLength _ _ cs

/-- C9 witness: for the JavaScript tree with a root-level function
declaration, extraction returns empty functions, classes and imports. -/
theorem claim_C9_witness :
    extract_functions cJsTree "javascript" = [] ∧
    extract_classes cJsTree "javascript" = [] ∧
    extract_imports cJsTree "javascript" = [] :=
  (claim_C9_amended cJsTree "javascript" "" "" 0 0 []).2.1 (by decide) (by decide)
